import Mathlib

/-!
Verification development for the SimStack repository (three stateless
HTTP simulators: queue, traffic, resource).

Real-valued Python floats are modelled as exact rationals; the special
IEEE values NaN, +inf and -inf are modelled explicitly by the `EFloat`
type, and every arithmetic and comparison operation used by the source
is given its Python semantics (in particular, Python float division by
zero raises `ZeroDivisionError`, which we model with `Except`, and the
builtin two-argument `min`/`max` are the order-dependent Python
versions, which matters when an argument is NaN).  Binary rounding
error, overflow and underflow of finite doubles are not modelled: all
finite arithmetic is exact.
-/

namespace SimStack

/-- Decidable equality for `Except`, so that concrete runs of the fallible
queue simulator can be checked by `decide`. -/
instance {ε α : Type} [DecidableEq ε] [DecidableEq α] : DecidableEq (Except ε α) := fun x y =>
  match x, y with
  | .error a, .error b =>
    if h : a = b then .isTrue (by rw [h]) else .isFalse (by simp [h])
  | .ok a, .ok b =>
    if h : a = b then .isTrue (by rw [h]) else .isFalse (by simp [h])
  | .error _, .ok _ => .isFalse (by simp)
  | .ok _, .error _ => .isFalse (by simp)

/-- Model of a Python float value: a finite value (an exact rational),
positive infinity, negative infinity, or NaN.  Signed zero is not
distinguished, as no observable behaviour of this codebase depends on
the sign of a zero. -/
inductive EFloat where
  | fin : ℚ → EFloat
  | inf : EFloat
  | ninf : EFloat
  | nan : EFloat
deriving DecidableEq, Repr

namespace EFloat

/-- Python float strict comparison `a < b`; any comparison with NaN is false. -/
def pyLt : EFloat → EFloat → Bool
  | nan, _ => false
  | _, nan => false
  | fin a, fin b => a < b
  | fin _, inf => true
  | fin _, ninf => false
  | inf, _ => false
  | ninf, ninf => false
  | ninf, _ => true

/-- Python float comparison `a <= b`; any comparison with NaN is false. -/
def pyLe : EFloat → EFloat → Bool
  | nan, _ => false
  | _, nan => false
  | fin a, fin b => a ≤ b
  | fin _, inf => true
  | fin _, ninf => false
  | inf, inf => true
  | inf, _ => false
  | ninf, _ => true

/-- Python float comparison `a > b`. -/
def pyGt (a b : EFloat) : Bool := pyLt b a

/-- Python float comparison `a >= b`. -/
def pyGe (a b : EFloat) : Bool := pyLe b a

/-- Python builtin `min(a, b)`: returns `b` if `b < a` else `a`.
When an argument is NaN the comparison is false, so the result depends
on argument order exactly as in CPython. -/
def pyMin (a b : EFloat) : EFloat := if pyLt b a then b else a

/-- Python builtin `max(a, b)`: returns `b` if `b > a` else `a`. -/
def pyMax (a b : EFloat) : EFloat := if pyGt b a then b else a

/-- Python float multiplication with IEEE special-value semantics. -/
def pyMul : EFloat → EFloat → EFloat
  | nan, _ => nan
  | _, nan => nan
  | fin a, fin b => fin (a * b)
  | fin a, inf => if 0 < a then inf else if a < 0 then ninf else nan
  | fin a, ninf => if 0 < a then ninf else if a < 0 then inf else nan
  | inf, fin b => if 0 < b then inf else if b < 0 then ninf else nan
  | ninf, fin b => if 0 < b then ninf else if b < 0 then inf else nan
  | inf, inf => inf
  | inf, ninf => ninf
  | ninf, inf => ninf
  | ninf, ninf => inf

/-- Python float subtraction with IEEE special-value semantics. -/
def pySub : EFloat → EFloat → EFloat
  | nan, _ => nan
  | _, nan => nan
  | fin a, fin b => fin (a - b)
  | fin _, inf => ninf
  | fin _, ninf => inf
  | inf, fin _ => inf
  | ninf, fin _ => ninf
  | inf, inf => nan
  | inf, ninf => inf
  | ninf, inf => ninf
  | ninf, ninf => nan

/-- Python float division.  CPython raises `ZeroDivisionError` whenever
the divisor is (plus or minus) zero, regardless of the dividend — even
for NaN or infinite dividends — so that case is an `Except.error`.
Otherwise IEEE special-value semantics apply. -/
def pyDiv : EFloat → EFloat → Except Unit EFloat
  | a, fin b =>
    if b = 0 then .error ()
    else match a with
      | fin p => .ok (fin (p / b))
      | inf => .ok (if 0 < b then inf else ninf)
      | ninf => .ok (if 0 < b then ninf else inf)
      | nan => .ok nan
  | fin _, inf => .ok (fin 0)
  | fin _, ninf => .ok (fin 0)
  | inf, inf => .ok nan
  | inf, ninf => .ok nan
  | ninf, inf => .ok nan
  | ninf, ninf => .ok nan
  | nan, inf => .ok nan
  | nan, ninf => .ok nan
  | _, nan => .ok nan

/-- Model of Python `math.isnan`. -/
def isNan : EFloat → Bool
  | nan => true
  | _ => false

/-- Model of Python `math.isinf`. -/
def isInf : EFloat → Bool
  | inf => true
  | ninf => true
  | _ => false

/-- A value is finite when it is neither NaN nor infinite. -/
def isFinite : EFloat → Bool
  | fin _ => true
  | _ => false

end EFloat

/-- Round a rational to the nearest integer, ties to even — the rounding
rule of Python's builtin `round`. -/
def roundHalfEven (q : ℚ) : ℤ :=
  if q - (⌊q⌋ : ℚ) < 1 / 2 then ⌊q⌋
  else if 1 / 2 < q - (⌊q⌋ : ℚ) then ⌊q⌋ + 1
  else if Even ⌊q⌋ then ⌊q⌋ else ⌊q⌋ + 1

/-- Model of Python `round(q, n)` on an exact value: round to `n` decimal
places, ties to even.  (On binary doubles CPython rounds the binary value,
so decimal ties can land either way; every value rounded in this
development is exactly representable, where the two agree.) -/
def roundTo (n : ℕ) (q : ℚ) : ℚ := (roundHalfEven (q * 10 ^ n) : ℚ) / 10 ^ n

namespace EFloat

/-- Model of Python `round(x, n)` on a float: NaN and infinities are
returned unchanged (CPython returns them as-is when `ndigits` is given). -/
def pyRound (n : ℕ) : EFloat → EFloat
  | fin q => fin (roundTo n q)
  | x => x

end EFloat

namespace Queue

open EFloat

/-- Source line 16 of src/simulators/queue/app.py, on the rational
shadow of the inputs: `rho = arrival / service if service > 0 else 0.0`. -/
def rhoQ (arrival service : ℚ) : ℚ := if 0 < service then arrival / service else 0

/-- Source line 32: `wait_minutes = max(0.0, min(wait * 60.0, 300.0))`,
applied to the already-multiplied value. -/
def clamp300 (x : EFloat) : EFloat := pyMax (fin 0) (pyMin x (fin 300))

/-- Source lines 35-36: if `wait_minutes` is NaN or infinite, replace it
with 240.0, else keep it. -/
def waitFix (x : EFloat) : EFloat := if x.isNan || x.isInf then fin 240 else x

/-- Source line 39: `utilization = max(0.0, min(rho, 0.99))`. -/
def utilClamp (rho : EFloat) : EFloat := pyMax (fin 0) (pyMin rho (fin (99 / 100)))

/-- The substitution inside source line 42: `queue_length if not
math.isnan(queue_length) else 50.0`.  Note the source tests only for NaN
here, not for infinity. -/
def queueNanSub (q : EFloat) : EFloat := if q.isNan then fin 50 else q

/-- Source line 42: `queue_length = max(0.0, min(queue_length if not
math.isnan(queue_length) else 50.0, 100.0))`. -/
def queueClamp (q : EFloat) : EFloat := pyMax (fin 0) (pyMin (queueNanSub q) (fin 100))

/-- The queue simulator's `simulate` endpoint body (src/simulators/queue/app.py
lines 16-42), before the final `round` calls.  Returns the triple
`(avg_wait_time_min, utilization, avg_queue_length)` pre-rounding, or an
error when the Python code would raise `ZeroDivisionError`. -/
def simulateCore (arrival service : EFloat) : Except Unit (EFloat × EFloat × EFloat) :=
  let rhoE : Except Unit EFloat :=
    if pyGt service (fin 0) then pyDiv arrival service else .ok (fin 0)
  match rhoE with
  | .error e => .error e
  | .ok rho =>
    let wqE : Except Unit (EFloat × EFloat) :=
      if pyGe rho (fin (19 / 20)) then .ok (fin 240, fin 50)
      else if pyLt rho (fin 0) then .ok (fin 0, fin 0)
      else
        match pyDiv rho (pyMul service (pySub (fin 1) rho)) with
        | .error e => .error e
        | .ok w =>
          match pyDiv rho (pySub (fin 1) rho) with
          | .error e => .error e
          | .ok q => .ok (w, q)
    match wqE with
    | .error e => .error e
    | .ok (wait, queueLen) =>
      .ok (waitFix (clamp300 (pyMul wait (fin 60))), utilClamp rho, queueClamp queueLen)

/-- The full endpoint result: the three metrics rounded to 2, 3 and 2
decimal places respectively (source lines 44-50). -/
def simulate (arrival service : EFloat) : Except Unit (EFloat × EFloat × EFloat) :=
  (simulateCore arrival service).map fun m =>
    (pyRound 2 m.1, pyRound 3 m.2.1, pyRound 2 m.2.2)

end Queue

namespace Traffic

/-- The traffic simulator's `simulate` endpoint body
(src/simulators/traffic/app.py lines 14-15), on real inputs:
`speed = max(5.0, 60.0 * (1.0 - min(1.0, max(0.0, density))))`,
`throughput = speed * 10.0`.  The `signal_timing` field of the input
model is accepted and ignored, as in the source.  Returns
`(avg_speed_kmh, throughput_veh_per_hr)`. -/
def simulate (density : ℚ) (_signalTiming : Option ℚ) : ℚ × ℚ :=
  let speed := max 5 (60 * (1 - min 1 (max 0 density)))
  (speed, speed * 10)

end Traffic

namespace Resource

/-- The resource simulator's `simulate` endpoint body
(src/simulators/resource/app.py lines 14-15): `coverage = staff * 0.8`,
`satisfaction = min(1.0, 0.5 + (staff / 100.0))`.  The input `staff` is
an integer in the source's pydantic model; the unused `shifts` field is
accepted and ignored.  Returns `(coverage_units, satisfaction)`. -/
def simulate (staff : ℤ) (_shifts : Option (List String)) : ℚ × ℚ :=
  ((staff : ℚ) * (8 / 10), min 1 (1 / 2 + (staff : ℚ) / 100))

end Resource

/-! Helper lemmas: behaviour of the Python-float operations on finite
values, bounds for the rounding function, and a characterization of each
branch of the queue simulator. -/

namespace EFloat

theorem pyLt_fin (a b : ℚ) : pyLt (fin a) (fin b) = decide (a < b) := rfl

theorem pyLe_fin (a b : ℚ) : pyLe (fin a) (fin b) = decide (a ≤ b) := rfl

theorem pyGt_fin (a b : ℚ) : pyGt (fin a) (fin b) = decide (b < a) := rfl

theorem pyGe_fin (a b : ℚ) : pyGe (fin a) (fin b) = decide (b ≤ a) := rfl

theorem pyMul_fin (a b : ℚ) : pyMul (fin a) (fin b) = fin (a * b) := rfl

theorem pySub_fin (a b : ℚ) : pySub (fin a) (fin b) = fin (a - b) := rfl

theorem pyDiv_fin (a b : ℚ) :
    pyDiv (fin a) (fin b) = if b = 0 then .error () else .ok (fin (a / b)) := rfl

theorem isNan_fin (a : ℚ) : isNan (fin a) = false := rfl

theorem isInf_fin (a : ℚ) : isInf (fin a) = false := rfl

theorem pyRound_fin (n : ℕ) (a : ℚ) : pyRound n (fin a) = fin (roundTo n a) := rfl

theorem pyMin_fin (a b : ℚ) : pyMin (fin a) (fin b) = fin (min a b) := by
  simp only [pyMin, pyLt_fin]
  rcases le_or_lt a b with h | h
  · rw [if_neg (by simpa using not_lt.mpr h), min_eq_left h]
  · rw [if_pos (by simpa using h), min_eq_right h.le]

theorem pyMax_fin (a b : ℚ) : pyMax (fin a) (fin b) = fin (max a b) := by
  simp only [pyMax, pyGt_fin]
  rcases le_or_lt b a with h | h
  · rw [if_neg (by simpa using not_lt.mpr h), max_eq_left h]
  · rw [if_pos (by simpa using h), max_eq_right h.le]

end EFloat

theorem roundHalfEven_nonneg (q : ℚ) (h : 0 ≤ q) : 0 ≤ roundHalfEven q := by
  have hf : (0 : ℤ) ≤ ⌊q⌋ := Int.floor_nonneg.mpr h
  unfold roundHalfEven
  split_ifs <;> omega

theorem roundHalfEven_le_int (q : ℚ) (m : ℤ) (h : q ≤ (m : ℚ)) : roundHalfEven q ≤ m := by
  have hf : ⌊q⌋ ≤ m := by
    have h2 := Int.floor_le_floor (α := ℚ) h
    simpa using h2
  have hfq : (⌊q⌋ : ℚ) ≤ q := Int.floor_le q
  unfold roundHalfEven
  split_ifs with h1 h2 h3
  · exact hf
  · have hlt : (⌊q⌋ : ℚ) < (m : ℚ) := by linarith
    have : ⌊q⌋ < m := by exact_mod_cast hlt
    omega
  · exact hf
  · have hr : q - (⌊q⌋ : ℚ) = 1 / 2 := le_antisymm (not_lt.mp h2) (not_lt.mp h1)
    have hlt : (⌊q⌋ : ℚ) < (m : ℚ) := by linarith
    have : ⌊q⌋ < m := by exact_mod_cast hlt
    omega

theorem roundTo_nonneg (n : ℕ) (q : ℚ) (h : 0 ≤ q) : 0 ≤ roundTo n q := by
  have := roundHalfEven_nonneg (q * 10 ^ n) (by positivity)
  unfold roundTo
  positivity

theorem roundTo_le (n : ℕ) (q : ℚ) (m : ℤ) (h : q ≤ (m : ℚ) / 10 ^ n) :
    roundTo n q ≤ (m : ℚ) / 10 ^ n := by
  have hp : (0 : ℚ) < 10 ^ n := by positivity
  have h1 : q * 10 ^ n ≤ (m : ℚ) := (le_div_iff₀ hp).mp h
  have h2 := roundHalfEven_le_int (q * 10 ^ n) m h1
  have h3 : (roundHalfEven (q * 10 ^ n) : ℚ) ≤ (m : ℚ) := by exact_mod_cast h2
  unfold roundTo
  exact div_le_div_of_nonneg_right h3 hp.le

theorem clamp_pair_bounds (x B : ℚ) (hB : 0 ≤ B) :
    0 ≤ max 0 (min x B) ∧ max 0 (min x B) ≤ B :=
  ⟨le_max_left 0 _, max_le hB (min_le_right x B)⟩

namespace Queue

open EFloat

theorem clamp300_fin (x : ℚ) : clamp300 (fin x) = fin (max 0 (min x 300)) := by
  rw [clamp300, pyMin_fin, pyMax_fin]

theorem waitFix_fin (x : ℚ) : waitFix (fin x) = fin x := rfl

theorem utilClamp_fin (r : ℚ) : utilClamp (fin r) = fin (max 0 (min r (99 / 100))) := by
  rw [utilClamp, pyMin_fin, pyMax_fin]

theorem queueNanSub_fin (q : ℚ) : queueNanSub (fin q) = fin q := rfl

theorem queueClamp_fin (q : ℚ) : queueClamp (fin q) = fin (max 0 (min q 100)) := by
  rw [queueClamp, queueNanSub_fin, pyMin_fin, pyMax_fin]

theorem simulateCore_overload (a s : ℚ) (hs : 0 < s) (h : 19 / 20 ≤ a / s) :
    simulateCore (fin a) (fin s) =
      .ok (fin 300, fin (max 0 (min (a / s) (99 / 100))), fin 50) := by
  simp only [simulateCore, pyGt_fin, pyGe_fin, pyDiv_fin, decide_eq_true_eq, hs, if_true,
    hs.ne', ite_false, h, pyMul_fin, clamp300_fin, waitFix_fin, utilClamp_fin, queueClamp_fin]
  norm_num

theorem simulateCore_negRho (a s : ℚ) (hs : 0 < s) (h : a / s < 0) :
    simulateCore (fin a) (fin s) = .ok (fin 0, fin 0, fin 0) := by
  have hnot : ¬(19 / 20 : ℚ) ≤ a / s := by linarith
  simp only [simulateCore, pyGt_fin, pyGe_fin, pyLt_fin, pyDiv_fin, decide_eq_true_eq, hs,
    if_true, hs.ne', ite_false, hnot, h, pyMul_fin, clamp300_fin, waitFix_fin, utilClamp_fin,
    queueClamp_fin]
  rw [min_eq_left (by linarith : a / s ≤ 99 / 100), max_eq_left h.le]
  norm_num

theorem simulateCore_normal (a s : ℚ) (hs : 0 < s) (h0 : 0 ≤ a / s) (h1 : a / s < 19 / 20) :
    simulateCore (fin a) (fin s) =
      .ok (fin (max 0 (min (a / s / (s * (1 - a / s)) * 60) 300)), fin (a / s),
        fin (a / s / (1 - a / s))) := by
  have hnot : ¬(19 / 20 : ℚ) ≤ a / s := by linarith
  have hnotneg : ¬(a / s < 0) := by linarith
  have hrho : (1 : ℚ) - a / s > 0 := by linarith
  have hden : s * (1 - a / s) ≠ 0 := by positivity
  have hq0 : 0 ≤ a / s / (1 - a / s) := div_nonneg h0 hrho.le
  have hq100 : a / s / (1 - a / s) ≤ 100 := by
    rw [div_le_iff₀ hrho]
    linarith
  simp only [simulateCore, pyGt_fin, pyGe_fin, pyLt_fin, pyDiv_fin, pySub_fin, pyMul_fin,
    decide_eq_true_eq, hs, if_true, hs.ne', ite_false, hnot, hnotneg, hden, hrho.ne',
    clamp300_fin, waitFix_fin, utilClamp_fin, queueClamp_fin]
  rw [min_eq_left (by linarith : a / s ≤ 99 / 100), max_eq_right h0,
    min_eq_left hq100, max_eq_right hq0]

theorem simulateCore_zeroService (a : ℚ) : simulateCore (fin a) (fin 0) = .error () := by
  norm_num [simulateCore, pyGt_fin, pyGe_fin, pyLt_fin, pyDiv_fin, pySub_fin, pyMul_fin]

theorem simulateCore_negService (a s : ℚ) (hs : s < 0) :
    simulateCore (fin a) (fin s) = .ok (fin 0, fin 0, fin 0) := by
  have hnotpos : ¬(0 : ℚ) < s := by linarith
  have hden : s * (1 - 0) ≠ 0 := by simpa using hs.ne
  simp only [simulateCore, pyGt_fin, pyGe_fin, pyLt_fin, pyDiv_fin, pySub_fin, pyMul_fin,
    decide_eq_true_eq, hnotpos, ite_false, hden, clamp300_fin, waitFix_fin, utilClamp_fin,
    queueClamp_fin]
  norm_num [pyMul_fin, clamp300_fin, waitFix_fin, utilClamp_fin, queueClamp_fin]

theorem simulateCore_ok_shape (a s : ℚ) (w u q : EFloat)
    (hok : simulateCore (fin a) (fin s) = .ok (w, u, q)) :
    ∃ w' u' q' : ℚ, w = fin w' ∧ 0 ≤ w' ∧ w' ≤ 300 ∧
      u = fin u' ∧ 0 ≤ u' ∧ u' ≤ 99 / 100 ∧
      q = fin q' ∧ 0 ≤ q' ∧ q' ≤ 100 := by
  rcases lt_trichotomy s 0 with hs | hs | hs
  · rw [simulateCore_negService a s hs] at hok
    obtain ⟨hw, hu, hq⟩ : w = fin 0 ∧ u = fin 0 ∧ q = fin 0 := by
      injection hok with h1
      injection h1 with h2 h3
      injection h3 with h4 h5
      exact ⟨h2.symm, h4.symm, h5.symm⟩
    exact ⟨0, 0, 0, hw, by norm_num, by norm_num, hu, by norm_num, by norm_num,
      hq, by norm_num, by norm_num⟩
  · rw [hs, simulateCore_zeroService a] at hok
    exact absurd hok (by simp)
  · rcases le_or_lt (19 / 20) (a / s) with hρ | hρ
    · rw [simulateCore_overload a s hs hρ] at hok
      obtain ⟨hw, hu, hq⟩ : w = fin 300 ∧ u = fin (max 0 (min (a / s) (99 / 100))) ∧
          q = fin 50 := by
        injection hok with h1
        injection h1 with h2 h3
        injection h3 with h4 h5
        exact ⟨h2.symm, h4.symm, h5.symm⟩
      obtain ⟨hu0, hu1⟩ := clamp_pair_bounds (a / s) (99 / 100) (by norm_num)
      exact ⟨300, _, 50, hw, by norm_num, by norm_num, hu, hu0, hu1,
        hq, by norm_num, by norm_num⟩
    · rcases lt_or_le (a / s) 0 with hneg | h0
      · rw [simulateCore_negRho a s hs hneg] at hok
        obtain ⟨hw, hu, hq⟩ : w = fin 0 ∧ u = fin 0 ∧ q = fin 0 := by
          injection hok with h1
          injection h1 with h2 h3
          injection h3 with h4 h5
          exact ⟨h2.symm, h4.symm, h5.symm⟩
        exact ⟨0, 0, 0, hw, by norm_num, by norm_num, hu, by norm_num, by norm_num,
          hq, by norm_num, by norm_num⟩
      · rw [simulateCore_normal a s hs h0 hρ] at hok
        obtain ⟨hw, hu, hq⟩ : w = fin (max 0 (min (a / s / (s * (1 - a / s)) * 60) 300)) ∧
            u = fin (a / s) ∧ q = fin (a / s / (1 - a / s)) := by
          injection hok with h1
          injection h1 with h2 h3
          injection h3 with h4 h5
          exact ⟨h2.symm, h4.symm, h5.symm⟩
        obtain ⟨hw0, hw1⟩ := clamp_pair_bounds (a / s / (s * (1 - a / s)) * 60) 300
          (by norm_num)
        have hrho : (1 : ℚ) - a / s > 0 := by linarith
        have hq100 : a / s / (1 - a / s) ≤ 100 := by
          rw [div_le_iff₀ hrho]
          linarith
        exact ⟨_, _, _, hw, hw0, hw1, hu, h0, by linarith, hq,
          div_nonneg h0 hrho.le, hq100⟩

theorem roundTo_zero (n : ℕ) : roundTo n 0 = 0 := by
  simp [roundTo, roundHalfEven]

theorem roundTo_le_of_le (n : ℕ) (q B : ℚ) (m : ℤ) (hm : (m : ℚ) / 10 ^ n = B)
    (h : q ≤ B) : roundTo n q ≤ B := by
  subst hm
  exact roundTo_le n q m h

theorem simulate_of_core (a s w u q : EFloat)
    (h : simulateCore a s = .ok (w, u, q)) :
    simulate a s = .ok (pyRound 2 w, pyRound 3 u, pyRound 2 q) := by
  rw [simulate, h]
  rfl

end Queue

/-! Claim theorems. -/

open EFloat

/-- C1: the spec claims an overloaded input (`rho >= 0.95`) yields
`avg_wait_time_min = 240.0` pre-rounding.  The code sets the sentinel
`wait = 240.0` (intended as "4 hours in minutes" per its own comment) but
then multiplies by 60 again and clamps at 300, so the endpoint actually
returns 300.0: at `(arrival_rate=19, service_rate=20)` the result is
`(300.0, 0.95, 50.0)`, not the claimed 240.0. -/
theorem queue_overload_returns_300_not_240 :
    Queue.simulate (fin 19) (fin 20) = .ok (fin 300, fin (19 / 20), fin 50) ∧
      EFloat.fin (300 : ℚ) ≠ EFloat.fin (240 : ℚ) := by
  constructor
  · norm_num [Queue.simulate, Queue.simulateCore, pyGt_fin, pyLt_fin, pyGe_fin, pyLe_fin,
      pyDiv_fin, pyMul_fin, pySub_fin, Queue.clamp300, Queue.waitFix, Queue.utilClamp,
      Queue.queueNanSub, Queue.queueClamp, pyMin, pyMax, pyLt, pyGt, isNan, isInf, pyRound,
      roundTo, roundHalfEven, Except.map]
  · intro h
    injection h with h1
    norm_num at h1

/-- C2: the spec claims the estimator is total over all real input pairs
and never raises.  It is false: for `service_rate = 0` the guard only
forces `rho = 0`, but the normal branch still divides by
`service_rate * (1 - rho) = 0`, and CPython float division by zero
raises `ZeroDivisionError`.  Modelled: the embedded endpoint returns an
error at `(arrival_rate=0, service_rate=0)`. -/
theorem queue_zero_service_rate_raises :
    Queue.simulate (fin 0) (fin 0) = .error () := by
  rw [Queue.simulate, Queue.simulateCore_zeroService]
  rfl

/-- C3: the spec claims every `service_rate <= 0` input returns all-zero
metrics, in particular `(arrival_rate=5, service_rate=0)`, "without
hitting an undefined division".  False: exactly that input hits the
division `0.0 / (0.0 * 1.0)` in the normal branch and raises
`ZeroDivisionError` (the `service_rate < 0` cases do return zeros). -/
theorem queue_service_zero_example_raises :
    Queue.simulate (fin 5) (fin 0) = .error () := by
  rw [Queue.simulate, Queue.simulateCore_zeroService]
  rfl

/-- C4: for `service_rate > 0` and `0 <= rho < 0.95` the pre-rounding
outputs match the closed-form M/M/1 formulas: the wait is
`60 * rho / (service_rate * (1 - rho))` clamped to `[0, 300]`, the
utilization is `rho` itself, and the queue length is `rho / (1 - rho)`. -/
theorem queue_normal_closed_form (a s : ℚ) (hs : 0 < s) (h0 : 0 ≤ a / s)
    (h1 : a / s < 19 / 20) :
    Queue.simulateCore (fin a) (fin s) =
      .ok (fin (max 0 (min (60 * (a / s) / (s * (1 - a / s))) 300)), fin (a / s),
        fin (a / s / (1 - a / s))) := by
  rw [Queue.simulateCore_normal a s hs h0 h1]
  have e : a / s / (s * (1 - a / s)) * 60 = 60 * (a / s) / (s * (1 - a / s)) := by
    ring
  rw [e]

/-- Witness for C4 at the spec's concrete case `(arrival_rate=5,
service_rate=10)`: rho is 0.5 and the pre-rounding outputs are
exactly 6.0 minutes, utilization 0.5 and queue length 1.0. -/
theorem queue_normal_closed_form_witness :
    Queue.simulateCore (fin 5) (fin 10) = .ok (fin 6, fin (1 / 2), fin 1) := by
  have h := queue_normal_closed_form 5 10 (by norm_num) (by norm_num) (by norm_num)
  rw [h]
  norm_num

/-- C5: every triple actually returned by the queue endpoint (after
rounding) is finite, with `avg_wait_time_min` in `[0, 300]`,
`utilization` in `[0, 0.99]` and `avg_queue_length` in `[0, 100]`.
(NaN and infinity are representable in the model, and the conclusion
exhibits each output as a finite rational.) -/
theorem queue_outputs_bounded (a s : ℚ) (w u q : EFloat)
    (hok : Queue.simulate (fin a) (fin s) = .ok (w, u, q)) :
    ∃ wv uv qv : ℚ, w = fin wv ∧ 0 ≤ wv ∧ wv ≤ 300 ∧
      u = fin uv ∧ 0 ≤ uv ∧ uv ≤ 99 / 100 ∧
      q = fin qv ∧ 0 ≤ qv ∧ qv ≤ 100 := by
  cases hcore : Queue.simulateCore (fin a) (fin s) with
  | error e =>
    rw [Queue.simulate, hcore] at hok
    exact absurd hok (by simp [Except.map])
  | ok m =>
    obtain ⟨w0, u0, q0⟩ := m
    obtain ⟨wv, uv, qv, hw, hw0, hw1, hu, hu0, hu1, hq, hq0, hq1⟩ :=
      Queue.simulateCore_ok_shape a s w0 u0 q0 hcore
    rw [Queue.simulate_of_core (fin a) (fin s) w0 u0 q0 hcore] at hok
    injection hok with h1
    injection h1 with hA h2
    injection h2 with hB hC
    refine ⟨roundTo 2 wv, roundTo 3 uv, roundTo 2 qv, ?_, ?_, ?_, ?_, ?_, ?_, ?_, ?_, ?_⟩
    · rw [← hA, hw, pyRound_fin]
    · exact roundTo_nonneg 2 wv hw0
    · exact Queue.roundTo_le_of_le 2 wv 300 30000 (by norm_num) hw1
    · rw [← hB, hu, pyRound_fin]
    · exact roundTo_nonneg 3 uv hu0
    · exact Queue.roundTo_le_of_le 3 uv (99 / 100) 990 (by norm_num) hu1
    · rw [← hC, hq, pyRound_fin]
    · exact roundTo_nonneg 2 qv hq0
    · exact Queue.roundTo_le_of_le 2 qv 100 10000 (by norm_num) hq1

/-- Witness for C5 at `(arrival_rate=5, service_rate=10)`, whose rounded
output triple is `(6.0, 0.5, 1.0)`. -/
theorem queue_outputs_bounded_witness :
    ∃ wv uv qv : ℚ, fin 6 = fin wv ∧ 0 ≤ wv ∧ wv ≤ 300 ∧
      fin (1 / 2) = fin uv ∧ 0 ≤ uv ∧ uv ≤ 99 / 100 ∧
      fin 1 = fin qv ∧ 0 ≤ qv ∧ qv ≤ 100 :=
  queue_outputs_bounded 5 10 (fin 6) (fin (1 / 2)) (fin 1) (by
    norm_num [Queue.simulate, Queue.simulateCore, pyGt_fin, pyLt_fin, pyGe_fin, pyLe_fin,
      pyDiv_fin, pyMul_fin, pySub_fin, Queue.clamp300, Queue.waitFix, Queue.utilClamp,
      Queue.queueNanSub, Queue.queueClamp, pyMin, pyMax, pyLt, pyGt, isNan, isInf, pyRound,
      roundTo, roundHalfEven, Except.map])

/-- C6 counterexample: the spec claims every non-finite intermediate
queue length is substituted with 50.0 before the clamp, but source
line 42 only tests `math.isnan`: an infinite queue length is not
substituted (it is left for the clamp, which yields 100.0, not the 50.0
a substitution would give). -/
theorem queue_inf_queue_length_not_substituted :
    EFloat.isFinite EFloat.inf = false ∧ Queue.queueNanSub EFloat.inf ≠ EFloat.fin 50 ∧
      Queue.queueClamp EFloat.inf = EFloat.fin 100 := by
  refine ⟨rfl, fun h => ?_, ?_⟩
  · simp [Queue.queueNanSub, isNan] at h
  · norm_num [Queue.queueClamp, Queue.queueNanSub, pyMin, pyMax, pyLt, pyGt, isNan]

/-- C6 (amended): a non-finite intermediate `wait_minutes` is overridden
to exactly 240.0; a NaN intermediate queue length is substituted with
50.0 before the clamp, while an infinite queue length is handled by the
clamp itself (100.0 for +inf, 0.0 for -inf). -/
theorem queue_nonfinite_sanitization (w q : EFloat) (hw : w.isFinite = false)
    (hq : q.isNan = true) :
    Queue.waitFix w = EFloat.fin 240 ∧ Queue.queueNanSub q = EFloat.fin 50 ∧
      Queue.queueClamp EFloat.inf = EFloat.fin 100 ∧
      Queue.queueClamp EFloat.ninf = EFloat.fin 0 := by
  refine ⟨?_, ?_, ?_, ?_⟩
  · cases w <;> simp_all [Queue.waitFix, isNan, isInf, isFinite]
  · cases q <;> simp_all [Queue.queueNanSub, isNan]
  · norm_num [Queue.queueClamp, Queue.queueNanSub, pyMin, pyMax, pyLt, pyGt, isNan]
  · norm_num [Queue.queueClamp, Queue.queueNanSub, pyMin, pyMax, pyLt, pyGt, isNan]

/-- Witness for C6 (amended) at the concrete non-finite intermediates
`wait_minutes = NaN` and `queue_length = NaN`. -/
theorem queue_nonfinite_sanitization_witness :
    Queue.waitFix EFloat.nan = EFloat.fin 240 ∧
      Queue.queueNanSub EFloat.nan = EFloat.fin 50 ∧
      Queue.queueClamp EFloat.inf = EFloat.fin 100 ∧
      Queue.queueClamp EFloat.ninf = EFloat.fin 0 :=
  queue_nonfinite_sanitization EFloat.nan EFloat.nan rfl rfl

/-- C7: in every successful run the reported (pre-rounding) utilization
is exactly `rho` clamped to `[0, 0.99]`, independently of the three-way
branch; in particular for `0.95 <= rho <= 0.99` it equals `rho` itself,
even though the branch replaced the wait/queue values with sentinels. -/
theorem queue_utilization_clamped_rho (a s : ℚ) (w u q : EFloat)
    (hok : Queue.simulateCore (fin a) (fin s) = .ok (w, u, q)) :
    u = fin (max 0 (min (Queue.rhoQ a s) (99 / 100))) ∧
      (19 / 20 ≤ Queue.rhoQ a s → Queue.rhoQ a s ≤ 99 / 100 →
        u = fin (Queue.rhoQ a s)) := by
  have hmain : u = fin (max 0 (min (Queue.rhoQ a s) (99 / 100))) := by
    rcases lt_trichotomy s 0 with hs | hs | hs
    · rw [Queue.simulateCore_negService a s hs] at hok
      injection hok with h1
      injection h1 with h2 h3
      injection h3 with h4 h5
      rw [← h4, Queue.rhoQ, if_neg (by linarith : ¬(0 : ℚ) < s)]
      norm_num
    · rw [hs, Queue.simulateCore_zeroService a] at hok
      exact absurd hok (by simp)
    · have hρ : Queue.rhoQ a s = a / s := if_pos hs
      rcases le_or_lt (19 / 20) (a / s) with hov | hno
      · rw [Queue.simulateCore_overload a s hs hov] at hok
        injection hok with h1
        injection h1 with h2 h3
        injection h3 with h4 h5
        rw [← h4, hρ]
      · rcases lt_or_le (a / s) 0 with hneg | h0
        · rw [Queue.simulateCore_negRho a s hs hneg] at hok
          injection hok with h1
          injection h1 with h2 h3
          injection h3 with h4 h5
          rw [← h4, hρ, min_eq_left (by linarith : a / s ≤ 99 / 100),
            max_eq_left hneg.le]
        · rw [Queue.simulateCore_normal a s hs h0 hno] at hok
          injection hok with h1
          injection h1 with h2 h3
          injection h3 with h4 h5
          rw [← h4, hρ, min_eq_left (by linarith : a / s ≤ 99 / 100),
            max_eq_right h0]
  refine ⟨hmain, fun hge hle => ?_⟩
  rw [hmain, min_eq_left hle, max_eq_right (le_trans (by norm_num) hge)]

/-- Witness for C7 at `(arrival_rate=19, service_rate=20)`: the reported
pre-rounding utilization is `rho = 0.95` itself, alongside the sentinel
wait/queue values. -/
theorem queue_utilization_clamped_rho_witness :
    EFloat.fin ((19 : ℚ) / 20) = EFloat.fin (Queue.rhoQ 19 20) := by
  have hev : Queue.simulateCore (fin 19) (fin 20) =
      .ok (fin 300, fin (19 / 20), fin 50) := by
    norm_num [Queue.simulateCore, pyGt_fin, pyLt_fin, pyGe_fin, pyLe_fin,
      pyDiv_fin, pyMul_fin, pySub_fin, Queue.clamp300, Queue.waitFix, Queue.utilClamp,
      Queue.queueNanSub, Queue.queueClamp, pyMin, pyMax, pyLt, pyGt, isNan, isInf]
  exact (queue_utilization_clamped_rho 19 20 (fin 300) (fin (19 / 20)) (fin 50) hev).2
    (by norm_num [Queue.rhoQ]) (by norm_num [Queue.rhoQ])

/-- C8: for `service_rate > 0` and `arrival_rate < 0` (so `rho < 0`)
the endpoint returns exactly `(0.0, 0.0, 0.0)`. -/
theorem queue_negative_arrival_all_zero (a s : ℚ) (hs : 0 < s) (ha : a < 0) :
    Queue.simulate (fin a) (fin s) = .ok (fin 0, fin 0, fin 0) := by
  have hneg : a / s < 0 := div_neg_of_neg_of_pos ha hs
  rw [Queue.simulate_of_core (fin a) (fin s) (fin 0) (fin 0) (fin 0)
    (Queue.simulateCore_negRho a s hs hneg), pyRound_fin, pyRound_fin,
    Queue.roundTo_zero, Queue.roundTo_zero]

/-- Witness for C8 at the spec's concrete case
`(arrival_rate=-1, service_rate=10)`. -/
theorem queue_negative_arrival_all_zero_witness :
    Queue.simulate (fin (-1)) (fin 10) = .ok (fin 0, fin 0, fin 0) :=
  queue_negative_arrival_all_zero (-1) 10 (by norm_num) (by norm_num)

/-- C9: for every real density (and any signal timing) the traffic
simulator's speed lies in `[5, 60]` and its throughput is exactly ten
times the speed, hence lies in `[50, 600]`. -/
theorem traffic_speed_and_throughput_bounds (d : ℚ) (st : Option ℚ) :
    5 ≤ (Traffic.simulate d st).1 ∧ (Traffic.simulate d st).1 ≤ 60 ∧
      (Traffic.simulate d st).2 = 10 * (Traffic.simulate d st).1 ∧
      50 ≤ (Traffic.simulate d st).2 ∧ (Traffic.simulate d st).2 ≤ 600 := by
  have h1 : (Traffic.simulate d st).1 = max 5 (60 * (1 - min 1 (max 0 d))) := rfl
  have h2 : (Traffic.simulate d st).2 = (Traffic.simulate d st).1 * 10 := rfl
  have hm0 : 0 ≤ min 1 (max 0 d) := le_min (by norm_num) (le_max_left 0 d)
  have hs5 : 5 ≤ (Traffic.simulate d st).1 := h1 ▸ le_max_left 5 _
  have hs60 : (Traffic.simulate d st).1 ≤ 60 := by
    rw [h1]
    exact max_le (by norm_num) (by linarith)
  refine ⟨hs5, hs60, by rw [h2]; ring, ?_, ?_⟩
  · rw [h2]
    linarith
  · rw [h2]
    linarith

/-- C10: the resource simulator's satisfaction equals
`min(1.0, 0.5 + staff/100)`: it is monotone non-decreasing in staff,
never exceeds 1, equals exactly 1 for all `staff >= 50`, and (having no
lower clamp) is negative for all `staff < -50`. -/
theorem resource_satisfaction_profile (s t : ℤ) (sh : Option (List String)) :
    (Resource.simulate s sh).2 = min 1 (1 / 2 + (s : ℚ) / 100) ∧
      (s ≤ t → (Resource.simulate s sh).2 ≤ (Resource.simulate t sh).2) ∧
      (Resource.simulate s sh).2 ≤ 1 ∧
      (50 ≤ s → (Resource.simulate s sh).2 = 1) ∧
      (s < -50 → (Resource.simulate s sh).2 < 0) := by
  have hdef : ∀ u : ℤ, (Resource.simulate u sh).2 = min 1 (1 / 2 + (u : ℚ) / 100) :=
    fun u => rfl
  refine ⟨hdef s, fun hst => ?_, ?_, fun h50 => ?_, fun hneg => ?_⟩
  · rw [hdef s, hdef t]
    have hc : (s : ℚ) ≤ t := by exact_mod_cast hst
    exact min_le_min le_rfl (by linarith)
  · rw [hdef s]
    exact min_le_left _ _
  · rw [hdef s]
    have hc : (50 : ℚ) ≤ (s : ℚ) := by exact_mod_cast h50
    exact min_eq_left (by linarith)
  · rw [hdef s]
    have hc : (s : ℚ) ≤ -51 := by exact_mod_cast (by omega : s ≤ -51)
    exact lt_of_le_of_lt (min_le_right _ _) (by linarith)

/-- Witness for C10 at concrete staffing levels: 10 vs 20 staff for
monotonicity, 50 staff saturating at 1, and -51 staff going negative. -/
theorem resource_satisfaction_profile_witness :
    (Resource.simulate 10 none).2 ≤ (Resource.simulate 20 none).2 ∧
      (Resource.simulate 50 none).2 = 1 ∧ (Resource.simulate (-51) none).2 < 0 :=
  ⟨(resource_satisfaction_profile 10 20 none).2.1 (by norm_num),
   (resource_satisfaction_profile 50 0 none).2.2.2.1 (by norm_num),
   (resource_satisfaction_profile (-51) 0 none).2.2.2.2 (by norm_num)⟩

end SimStack
